import Mathlib

/- A verification model of the Boots database bootstrapper (src/Boots.ts and
BootsScript.ts).  Pure data is embedded directly; the asynchronous promise
chain of `_runScripts` is embedded as the deterministic event trace it
produces, and the module-loading boundary (`require(path).default`) is a
parameter `env : String → Except Unit JSValue` (`.error` = require threw). -/

/-- The result of a BootsScript execution (interface BootsScriptResult in
BootsScript.ts).  The `error?: any` field is modelled as an optional
diagnostic string; an absent field is `none` (JS `undefined`). -/
structure BootsScriptResult where
  success : Bool
  error : Option String
  scriptName : String
  deriving DecidableEq

/-- How one invocation of a script's `run()` promise settles: it either
resolves with a result or rejects with an error payload (the source's catch
handlers annotate rejection payloads with the type BootsScriptResult). -/
inductive RunBehavior where
  | resolves (r : BootsScriptResult)
  | rejects (e : BootsScriptResult)
  deriving DecidableEq

/-- The `run` field of a loaded value: either present but not a function
(so `typeof o.run === 'function'` is false) or a function whose single
invocation settles with the recorded behaviour. -/
inductive RunField where
  | notFun
  | fn (behavior : RunBehavior)
  deriving DecidableEq

/-- A JavaScript value as seen by the loader after `require(path).default`:
`undefined` (e.g. the module has no default export), `null`, or an object
with optional `bootsScriptName` and `run` fields (an absent field is `none`,
i.e. JS `undefined`; the name field is string-valued as the contract
requires). -/
inductive JSValue where
  | undefined
  | null
  | obj (bootsScriptName : Option String) (run : Option RunField)
  deriving DecidableEq

/-- `isBootsScript` (BootsScript.ts line 16-18):
`(typeof o.run === 'function') && o.bootsScriptName`.
On `undefined`/`null` the property access `o.run` throws a TypeError,
modelled as `.error ()`; on an object it returns the truthiness of the
conjunction (a missing `run` or non-function `run` fails the first test; a
missing or empty-string name is falsy). -/
def isBootsScript : JSValue → Except Unit Bool
  | .undefined => .error ()
  | .null => .error ()
  | .obj name runf =>
      .ok ((match runf with
            | some (.fn _) => true
            | _ => false)
           &&
           (match name with
            | some s => s != ""
            | none => false))

/-- interface BootsScript: a validated script unit.  `run` records the
settlement of the unit's single invocation during the run. -/
structure BootsScript where
  bootsScriptName : String
  run : RunBehavior
  deriving DecidableEq

/-- interface LoadModulesResult: `cantResolve` and `wrongType` are optional
arrays (they stay JS-`undefined`, here `none`, until the first push). -/
structure LoadModulesResult where
  ok : Bool
  cantResolve : Option (List String)
  wrongType : Option (List String)
  deriving DecidableEq

/-- The conditional-push idiom of `_loadModules`:
`o ? o.push(x) : o = [x]`. -/
def pushOpt (o : Option (List String)) (x : String) : Option (List String) :=
  match o with
  | some l => some (l ++ [x])
  | none => some [x]

/-- Read an optional array as a list (JS `undefined` reads as empty). -/
def optList (o : Option (List String)) : List String :=
  o.getD []

/-- Modelled boundary: Node's `path.join(baseUrl, path)`, simplified to
separator concatenation.  The claims depend only on where it is applied,
never on its normalisation behaviour. -/
def pathJoin (a b : String) : String :=
  a ++ "/" ++ b

/-- What `_loadModules` does with a single script path. -/
inductive LoadOneResult where
  | unit (s : BootsScript)
  | wrongShape (recorded : String)
  | unresolvable (recorded : String)
  deriving DecidableEq

/-- The body of the outer `try` of `_loadModules` once a value `v` has been
loaded under the (possibly re-assigned) path `recorded`: run `isBootsScript`
— if the property access throws (value is undefined/null) the outer `catch`
records `recorded` as unresolvable; if the check is truthy the unit is kept
(extracting its non-empty name and callable run); otherwise `recorded` is
recorded as wrong-shape. -/
def classify (v : JSValue) (recorded : String) : LoadOneResult :=
  match v with
  | .undefined => .unresolvable recorded
  | .null => .unresolvable recorded
  | .obj name runf =>
      match runf, name with
      | some (.fn beh), some n =>
          if n = "" then .wrongShape recorded else .unit ⟨n, beh⟩
      | _, _ => .wrongShape recorded

/-- One iteration of the `forEach` in `_loadModules` (Boots.ts 266-295):
the inner `try` loads `p` directly; on a throw, `scriptPath` is reassigned
to `path.join(baseUrl, p)` and the load retried once; a throw of the second
attempt reaches the outer `catch`, which records the reassigned
(base-joined) path as unresolvable. -/
def loadOne (baseUrl : String) (env : String → Except Unit JSValue)
    (p : String) : LoadOneResult :=
  match env p with
  | .ok v => classify v p
  | .error _ =>
      match env (pathJoin baseUrl p) with
      | .ok v => classify v (pathJoin baseUrl p)
      | .error _ => .unresolvable (pathJoin baseUrl p)

/-- The `forEach` loop of `_loadModules`, threading the accumulated
`this.bootsScripts` pushes and the mutable result record. -/
def loadModulesGo (baseUrl : String) (env : String → Except Unit JSValue) :
    List String → List BootsScript → LoadModulesResult →
    List BootsScript × LoadModulesResult
  | [], scripts, res => (scripts, res)
  | p :: rest, scripts, res =>
      match loadOne baseUrl env p with
      | .unit s => loadModulesGo baseUrl env rest (scripts ++ [s]) res
      | .wrongShape rec =>
          loadModulesGo baseUrl env rest scripts
            { res with ok := false, wrongType := pushOpt res.wrongType rec }
      | .unresolvable rec =>
          loadModulesGo baseUrl env rest scripts
            { res with ok := false, cantResolve := pushOpt res.cantResolve rec }

/-- `_loadModules` (Boots.ts 266-297): starts from `{ ok: true }` and an
empty batch of pushed scripts. -/
def loadModules (baseUrl : String) (env : String → Except Unit JSValue)
    (scriptPaths : List String) : List BootsScript × LoadModulesResult :=
  loadModulesGo baseUrl env scriptPaths [] ⟨true, none, none⟩

/-- static commandlineFlag = `--boots` (Boots.ts line 168). -/
def commandlineFlag : String := "--boots"

/-- `array[searching][0] !== '-'` : the first character of the token is not
a dash (for the empty token, `""[0]` is `undefined`, which is `!== '-'`). -/
def startsWithDash (t : String) : Bool :=
  t.data.head? = some '-'

/-- `_loadScriptPaths` (Boots.ts 299-314): `process.argv.forEach` visits
every index; on the flag, the inner `while` walks the following tokens
(the suffix after the flag occurrence), pushing until a token whose first
character is `-` or the end of the array. -/
def loadScriptPaths (argv : List String) : List String :=
  (List.range argv.length).flatMap fun i =>
    if argv[i]? = some commandlineFlag then
      (argv.drop (i + 1)).takeWhile fun t => !startsWithDash t
    else []

/-- Rendering of `${errorResult.error}` in a template literal
(JS prints `undefined` for an absent field). -/
def showErr : Option String → String
  | some s => s
  | none => "undefined"

/-- The terminal message of `_runScripts`'s final `.catch`. -/
def errMsg (e : BootsScriptResult) : String :=
  "Boots Error: Script " ++ e.scriptName ++
    " reported the following error: " ++ showErr e.error

/-- An observable event of the run: a `run()` invocation (named after the
unit), a `subscriber.next`, a `subscriber.complete`, or a
`subscriber.error`. -/
inductive TraceEvent where
  | invoke (name : String)
  | next (r : BootsScriptResult)
  | complete
  | errorEvt (msg : String)
  deriving DecidableEq

/-- The event trace of `_runScripts`'s promise-chain reduce (Boots.ts
231-264): tasks run strictly one after the other; a resolution is sent to
the subscriber with `next` and the chain continues; a rejection is
re-thrown through the chain (skipping every later task) into the final
`.catch`, which emits a single `subscriber.error`; if the whole chain
resolves, `subscriber.complete` fires. -/
def runTrace : List BootsScript → List TraceEvent
  | [] => [.complete]
  | s :: rest =>
      match s.run with
      | .resolves r => .invoke s.bootsScriptName :: .next r :: runTrace rest
      | .rejects e => [.invoke s.bootsScriptName, .errorEvt (errMsg e)]

def isErrEvt : TraceEvent → Bool
  | .errorEvt _ => true
  | _ => false

def isNextEvt : TraceEvent → Bool
  | .next _ => true
  | _ => false

/-- The outcome payloads that a trace delivers through `next`. -/
def nextsOf (tr : List TraceEvent) : List BootsScriptResult :=
  tr.filterMap fun e =>
    match e with
    | .next r => some r
    | _ => none

/-- The unit names whose `run()` the trace invoked. -/
def invokesOf (tr : List TraceEvent) : List String :=
  tr.filterMap fun e =>
    match e with
    | .invoke n => some n
    | _ => none

/-- Instance state of class Boots (second revision of Boots.ts, 147-328). -/
structure Boots where
  scriptPaths : List String
  bootsScripts : List BootsScript
  baseUrl : String
  errors : List String
  ok : Bool
  deriving DecidableEq

/-- The constructor: `baseUrl` is the already-resolved setting
(`options.baseUrl` when given, else the boundary value `process.cwd()`). -/
def Boots.new (baseUrl : String) : Boots :=
  { scriptPaths := [], bootsScripts := [], baseUrl := baseUrl,
    errors := [], ok := true }

/-- What `go()` hands back: `throwError(msg)` (a stream that errors
immediately, carrying `msg` and emitting nothing) or the `_runScripts`
observable, materialised as its event trace. -/
inductive GoOutput where
  | thrown (msg : String)
  | stream (trace : List TraceEvent)
  deriving DecidableEq

def noScriptsMsg : String :=
  "Boots Error: No script paths were specified."

def loadFailMsg : String :=
  "Boots Error: At least one error occurred while attempting to load the BootsScript modules. Use Boots.logErrors() to view more information."

/-- `JSON.stringify` of a string array (quoting only; the recorded paths in
this development contain nothing needing escapes). -/
def jsonList (l : List String) : String :=
  "[" ++ String.intercalate "," (l.map fun s => "\"" ++ s ++ "\"") ++ "]"

def cantResolveErr (l : List String) : String :=
  "Could not resolve the following paths: " ++ jsonList l

def wrongTypeErr (l : List String) : String :=
  "The following given BootsScript modules had no default export that was an instance of BootsScript: " ++ jsonList l

/-- `go()` (Boots.ts 196-222): load the script paths from argv; fewer than
one path fails the run at once; otherwise `_loadModules` runs (its valid
units are pushed to `this.bootsScripts` even when the check fails), a
failed check records one diagnostic per defined field and throws the
summary; otherwise `_runScripts` runs `this.bootsScripts` — its final
`.catch` (a trace ending in an error event) sets `ok` to false. -/
def Boots.go (b : Boots) (argv : List String)
    (env : String → Except Unit JSValue) : Boots × GoOutput :=
  let b1 : Boots := { b with scriptPaths := loadScriptPaths argv }
  if b1.scriptPaths.length < 1 then
    ({ b1 with ok := false }, .thrown noScriptsMsg)
  else
    let loaded := loadModules b1.baseUrl env b1.scriptPaths
    let b2 : Boots := { b1 with bootsScripts := b1.bootsScripts ++ loaded.1 }
    if loaded.2.ok then
      let tr := runTrace b2.bootsScripts
      (if tr.any isErrEvt then { b2 with ok := false } else b2, .stream tr)
    else
      let b3 : Boots := { b2 with ok := false }
      let b4 : Boots :=
        match loaded.2.cantResolve with
        | some l => { b3 with errors := b3.errors ++ [cantResolveErr l] }
        | none => b3
      let b5 : Boots :=
        match loaded.2.wrongType with
        | some l => { b4 with errors := b4.errors ++ [wrongTypeErr l] }
        | none => b4
      (b5, .thrown loadFailMsg)

/-- `logErrors()` (Boots.ts 225-229): prints each recorded diagnostic with
a `Boots Error: ` prefix; the instance state is untouched (the console is a
boundary, so the method is modelled as returning the printed lines). -/
def Boots.logErrors (b : Boots) : Boots × List String :=
  (b, b.errors.map fun e => "Boots Error: " ++ e)

/-! ## Derived projections used to state properties -/

/-- The unit contributed by one script path, when there is one. -/
def unitOf (baseUrl : String) (env : String → Except Unit JSValue)
    (p : String) : Option BootsScript :=
  match loadOne baseUrl env p with
  | .unit s => some s
  | _ => none

/-- The entry contributed by one script path to `cantResolve`, if any. -/
def unresRec (baseUrl : String) (env : String → Except Unit JSValue)
    (p : String) : Option String :=
  match loadOne baseUrl env p with
  | .unresolvable rec => some rec
  | _ => none

/-- The entry contributed by one script path to `wrongType`, if any. -/
def wrongRec (baseUrl : String) (env : String → Except Unit JSValue)
    (p : String) : Option String :=
  match loadOne baseUrl env p with
  | .wrongShape rec => some rec
  | _ => none

/-- The settled value of a run behaviour (for resolving units, the emitted
outcome). -/
def resOf : RunBehavior → BootsScriptResult
  | .resolves r => r
  | .rejects e => e

/-- The trace prefix produced by a block of units that all resolve:
invocation, then emission, unit after unit. -/
def successTrace (l : List BootsScript) : List TraceEvent :=
  l.flatMap fun u => [.invoke u.bootsScriptName, .next (resOf u.run)]

/-! ## Helper lemmas -/

theorem optList_pushOpt (o : Option (List String)) (x : String) :
    optList (pushOpt o x) = optList o ++ [x] := by
  cases o <;> rfl

theorem loadModulesGo_fst (baseUrl : String)
    (env : String → Except Unit JSValue) (ids : List String) :
    ∀ scripts res, (loadModulesGo baseUrl env ids scripts res).1 =
      scripts ++ ids.filterMap (unitOf baseUrl env) := by
  induction ids with
  | nil => intro scripts res; simp [loadModulesGo]
  | cons p rest ih =>
      intro scripts res
      rw [loadModulesGo]
      cases h : loadOne baseUrl env p with
      | unit s => rw [ih]; simp [unitOf, h]
      | wrongShape rec => rw [ih]; simp [unitOf, h]
      | unresolvable rec => rw [ih]; simp [unitOf, h]

theorem loadModulesGo_ok (baseUrl : String)
    (env : String → Except Unit JSValue) (ids : List String) :
    ∀ scripts res, (loadModulesGo baseUrl env ids scripts res).2.ok =
      (res.ok && ids.all fun p => (unitOf baseUrl env p).isSome) := by
  induction ids with
  | nil => intro scripts res; simp [loadModulesGo]
  | cons p rest ih =>
      intro scripts res
      rw [loadModulesGo]
      cases h : loadOne baseUrl env p with
      | unit s => rw [ih]; simp [unitOf, h, Bool.and_assoc]
      | wrongShape rec => rw [ih]; simp [unitOf, h]
      | unresolvable rec => rw [ih]; simp [unitOf, h]

theorem loadModulesGo_cantResolve (baseUrl : String)
    (env : String → Except Unit JSValue) (ids : List String) :
    ∀ scripts res, optList (loadModulesGo baseUrl env ids scripts res).2.cantResolve =
      optList res.cantResolve ++ ids.filterMap (unresRec baseUrl env) := by
  induction ids with
  | nil => intro scripts res; simp [loadModulesGo]
  | cons p rest ih =>
      intro scripts res
      rw [loadModulesGo]
      cases h : loadOne baseUrl env p with
      | unit s => rw [ih]; simp [unresRec, h]
      | wrongShape rec => rw [ih]; simp [unresRec, h]
      | unresolvable rec => rw [ih]; simp [unresRec, h, optList_pushOpt]

theorem loadModulesGo_wrongType (baseUrl : String)
    (env : String → Except Unit JSValue) (ids : List String) :
    ∀ scripts res, optList (loadModulesGo baseUrl env ids scripts res).2.wrongType =
      optList res.wrongType ++ ids.filterMap (wrongRec baseUrl env) := by
  induction ids with
  | nil => intro scripts res; simp [loadModulesGo]
  | cons p rest ih =>
      intro scripts res
      rw [loadModulesGo]
      cases h : loadOne baseUrl env p with
      | unit s => rw [ih]; simp [wrongRec, h]
      | wrongShape rec => rw [ih]; simp [wrongRec, h, optList_pushOpt]
      | unresolvable rec => rw [ih]; simp [wrongRec, h]

theorem loadModules_fst (baseUrl : String)
    (env : String → Except Unit JSValue) (ids : List String) :
    (loadModules baseUrl env ids).1 = ids.filterMap (unitOf baseUrl env) := by
  rw [loadModules, loadModulesGo_fst]; rfl

theorem loadModules_ok (baseUrl : String)
    (env : String → Except Unit JSValue) (ids : List String) :
    (loadModules baseUrl env ids).2.ok =
      ids.all fun p => (unitOf baseUrl env p).isSome := by
  rw [loadModules, loadModulesGo_ok]; rfl

theorem loadModules_cantResolve (baseUrl : String)
    (env : String → Except Unit JSValue) (ids : List String) :
    optList (loadModules baseUrl env ids).2.cantResolve =
      ids.filterMap (unresRec baseUrl env) := by
  rw [loadModules, loadModulesGo_cantResolve]; rfl

theorem loadModules_wrongType (baseUrl : String)
    (env : String → Except Unit JSValue) (ids : List String) :
    optList (loadModules baseUrl env ids).2.wrongType =
      ids.filterMap (wrongRec baseUrl env) := by
  rw [loadModules, loadModulesGo_wrongType]; rfl

/-- Exactly one of the three per-path projections fires. -/
theorem unitOf_isSome_iff (baseUrl : String)
    (env : String → Except Unit JSValue) (p : String) :
    (unitOf baseUrl env p).isSome = true ↔
      unresRec baseUrl env p = none ∧ wrongRec baseUrl env p = none := by
  cases h : loadOne baseUrl env p <;>
    simp [unitOf, unresRec, wrongRec, h]

theorem length_filterMap_of_isSome {α β : Type} (f : α → Option β) :
    ∀ l : List α, (∀ a ∈ l, (f a).isSome) →
      (l.filterMap f).length = l.length := by
  intro l
  induction l with
  | nil => intro _; rfl
  | cons a rest ih =>
      intro h
      have ha := h a (by simp)
      obtain ⟨b, hb⟩ := Option.isSome_iff_exists.mp ha
      rw [List.filterMap_cons, hb]
      simp only [List.length_cons]
      rw [ih fun x hx => h x (by simp [hx])]

theorem runTrace_resolves (l : List BootsScript)
    (h : ∀ u ∈ l, ∃ r, u.run = .resolves r) :
    runTrace l = successTrace l ++ [.complete] := by
  induction l with
  | nil => rfl
  | cons s rest ih =>
      obtain ⟨r, hr⟩ := h s (by simp)
      rw [runTrace]
      rw [hr]
      rw [ih fun u hu => h u (by simp [hu])]
      simp [successTrace, hr, resOf]

theorem runTrace_rejects_at (pre : List BootsScript) (s : BootsScript)
    (post : List BootsScript) (e : BootsScriptResult)
    (hpre : ∀ u ∈ pre, ∃ r, u.run = .resolves r)
    (hs : s.run = .rejects e) :
    runTrace (pre ++ s :: post) =
      successTrace pre ++ [.invoke s.bootsScriptName, .errorEvt (errMsg e)] := by
  induction pre with
  | nil => simp [runTrace, hs, successTrace]
  | cons u rest ih =>
      obtain ⟨r, hr⟩ := hpre u (by simp)
      rw [List.cons_append, runTrace, hr]
      rw [ih fun v hv => hpre v (by simp [hv])]
      simp [successTrace, hr, resOf]

theorem nextsOf_successTrace (l : List BootsScript) :
    nextsOf (successTrace l) = l.map fun u => resOf u.run := by
  induction l with
  | nil => rfl
  | cons u rest ih => simp [successTrace, nextsOf] at ih ⊢; exact ih

theorem invokesOf_successTrace (l : List BootsScript) :
    invokesOf (successTrace l) = l.map fun u => u.bootsScriptName := by
  induction l with
  | nil => rfl
  | cons u rest ih => simp [successTrace, invokesOf] at ih ⊢; exact ih

/-! ## The identifier scan, as the spec words it (for the refinement claim) -/

/-- The spec's description of the identifier source (spec §6): scanning the
invocation arguments in order, all tokens following an occurrence of the
one recognized flag, up to the next token whose first character is `-` or
the end of the arguments, become identifiers, block after block in
encountered order. -/
def scriptPathsSpec : List String → List String
  | [] => []
  | a :: rest =>
      (if a = commandlineFlag then
        rest.takeWhile fun t => !startsWithDash t
      else []) ++ scriptPathsSpec rest

theorem flatMap_range_succ {β : Type} (f : Nat → List β) (n : Nat) :
    (List.range (n + 1)).flatMap f =
      f 0 ++ (List.range n).flatMap fun i => f (i + 1) := by
  rw [List.range_succ_eq_map, List.flatMap_cons, List.flatMap_map]

theorem loadScriptPaths_eq_spec (argv : List String) :
    loadScriptPaths argv = scriptPathsSpec argv := by
  induction argv with
  | nil => rfl
  | cons a rest ih =>
      rw [scriptPathsSpec, ← ih]
      rw [loadScriptPaths, loadScriptPaths, List.length_cons, flatMap_range_succ]
      simp only [List.getElem?_cons_zero, List.getElem?_cons_succ,
        List.drop_succ_cons, List.drop_zero, Option.some.injEq]

/-! ## Unfolding `go` under each branch condition -/

theorem optList_eq_some (o : Option (List String)) (h : optList o ≠ []) :
    o = some (optList o) := by
  cases o with
  | none => exact absurd rfl h
  | some l => rfl

theorem go_empty (b : Boots) (argv : List String)
    (env : String → Except Unit JSValue) (h : loadScriptPaths argv = []) :
    b.go argv env =
      ({ b with scriptPaths := [], ok := false }, .thrown noScriptsMsg) := by
  rw [Boots.go]
  simp [h]

theorem go_resolved (b : Boots) (argv : List String)
    (env : String → Except Unit JSValue)
    (hne : loadScriptPaths argv ≠ [])
    (hok : (loadModules b.baseUrl env (loadScriptPaths argv)).2.ok = true) :
    b.go argv env =
      (let tr := runTrace (b.bootsScripts ++ (loadModules b.baseUrl env (loadScriptPaths argv)).1)
       ({ b with scriptPaths := loadScriptPaths argv,
                 bootsScripts := b.bootsScripts ++ (loadModules b.baseUrl env (loadScriptPaths argv)).1,
                 ok := if tr.any isErrEvt then false else b.ok },
        .stream tr)) := by
  have hlen : ¬ (loadScriptPaths argv).length < 1 := by
    simp [Nat.lt_one_iff, List.length_eq_zero, hne]
  rw [Boots.go]
  simp only [hlen, if_false, hok, if_true, ite_false, ite_true]
  split <;> rfl

theorem go_resolution_failed (b : Boots) (argv : List String)
    (env : String → Except Unit JSValue)
    (hne : loadScriptPaths argv ≠ [])
    (hok : (loadModules b.baseUrl env (loadScriptPaths argv)).2.ok = false) :
    (b.go argv env).2 = .thrown loadFailMsg ∧
    (b.go argv env).1.ok = false ∧
    (b.go argv env).1.errors =
      b.errors ++
        (match (loadModules b.baseUrl env (loadScriptPaths argv)).2.cantResolve with
         | some l => [cantResolveErr l]
         | none => []) ++
        (match (loadModules b.baseUrl env (loadScriptPaths argv)).2.wrongType with
         | some l => [wrongTypeErr l]
         | none => []) := by
  have hlen : ¬ (loadScriptPaths argv).length < 1 := by
    simp [Nat.lt_one_iff, List.length_eq_zero, hne]
  rw [Boots.go]
  simp only [hlen, if_false, hok, ite_false, ite_true, Bool.false_eq_true]
  cases hc : (loadModules b.baseUrl env (loadScriptPaths argv)).2.cantResolve <;>
    cases hw : (loadModules b.baseUrl env (loadScriptPaths argv)).2.wrongType <;>
      simp [hc, hw]

/-! ## Trace accessor lemmas -/

theorem nextsOf_append (t1 t2 : List TraceEvent) :
    nextsOf (t1 ++ t2) = nextsOf t1 ++ nextsOf t2 := by
  simp [nextsOf]

theorem invokesOf_append (t1 t2 : List TraceEvent) :
    invokesOf (t1 ++ t2) = invokesOf t1 ++ invokesOf t2 := by
  simp [invokesOf]

theorem filter_isErrEvt_successTrace (l : List BootsScript) :
    (successTrace l).filter isErrEvt = [] := by
  induction l with
  | nil => rfl
  | cons u rest ih => simp [successTrace, isErrEvt] at ih ⊢; exact ih

/-! ## Claims -/

def c1FailOutcome : BootsScriptResult := ⟨false, some "boom", "s1"⟩

def c1Scripts : List BootsScript :=
  [⟨"s1", .resolves c1FailOutcome⟩, ⟨"s2", .resolves ⟨true, none, "s2"⟩⟩]

/-- C1 counterexample: a unit whose `run()` RESOLVES with a failure Outcome
(`success = false`) refutes the claim: `_runScripts` never inspects the
`success` field of a resolved outcome, so the failure Outcome IS emitted as
a normal stream item, the run ends with a normal completion (no terminal
failure event), and the following unit is started. -/
theorem c1_counterexample :
    c1FailOutcome.success = false ∧
    runTrace c1Scripts =
      [.invoke "s1", .next c1FailOutcome, .invoke "s2",
       .next ⟨true, none, "s2"⟩, .complete] ∧
    TraceEvent.next c1FailOutcome ∈ runTrace c1Scripts ∧
    (runTrace c1Scripts).any isErrEvt = false ∧
    TraceEvent.invoke "s2" ∈ runTrace c1Scripts := by
  refine ⟨rfl, rfl, by decide, rfl, by decide⟩

/-- C1 (amended): only a REJECTED `run()` promise is a terminal failure.
If every unit before `s` resolves and `s`'s promise rejects with payload
`e`, the rejection payload is not emitted as a normal item: the trace is
the resolved units' invoke/next pairs, then `s`'s invocation, then exactly
one terminal error event built from the payload's `scriptName` and `error`
fields; no unit after `s` is ever invoked.  (A unit that resolves with a
`success = false` Outcome is emitted normally and does not end the run.) -/
theorem c1_amended_reject_terminal (pre : List BootsScript) (s : BootsScript)
    (post : List BootsScript) (e : BootsScriptResult)
    (hpre : ∀ u ∈ pre, ∃ r, u.run = .resolves r)
    (hs : s.run = .rejects e) :
    runTrace (pre ++ s :: post) =
      successTrace pre ++ [.invoke s.bootsScriptName, .errorEvt (errMsg e)] ∧
    (runTrace (pre ++ s :: post)).filter isErrEvt = [.errorEvt (errMsg e)] ∧
    invokesOf (runTrace (pre ++ s :: post)) =
      (pre.map fun u => u.bootsScriptName) ++ [s.bootsScriptName] ∧
    errMsg e = "Boots Error: Script " ++ e.scriptName ++
      " reported the following error: " ++ showErr e.error := by
  have htr := runTrace_rejects_at pre s post e hpre hs
  refine ⟨htr, ?_, ?_, rfl⟩
  · rw [htr, List.filter_append, filter_isErrEvt_successTrace]
    rfl
  · rw [htr, invokesOf_append, invokesOf_successTrace]
    rfl

/-- C1 amended witness: one resolving unit, then a rejecting unit, then a
unit that is never reached. -/
theorem c1_amended_witness :
    runTrace [⟨"a", .resolves ⟨true, none, "a"⟩⟩,
              ⟨"b", .rejects ⟨false, some "boom", "b"⟩⟩,
              ⟨"c", .resolves ⟨true, none, "c"⟩⟩] =
      successTrace [⟨"a", .resolves ⟨true, none, "a"⟩⟩] ++
        [.invoke "b", .errorEvt (errMsg ⟨false, some "boom", "b"⟩)] :=
  (c1_amended_reject_terminal
    [⟨"a", .resolves ⟨true, none, "a"⟩⟩]
    ⟨"b", .rejects ⟨false, some "boom", "b"⟩⟩
    [⟨"c", .resolves ⟨true, none, "c"⟩⟩]
    ⟨false, some "boom", "b"⟩
    (by intro u hu
        rw [List.mem_singleton] at hu
        exact ⟨⟨true, none, "a"⟩, by rw [hu]⟩)
    rfl).1

/-- C2: when the argument scan yields a non-empty identifier list, every
identifier loads to a valid unit and every unit's `run()` resolves, `go`
returns the sequencer stream: one invoke/next pair per unit, strictly in
input order (unit i+1's invocation appears only after unit i's emission),
closed by a completion event; the number of units equals the number of
identifiers. -/
theorem c2_ordered_success (b : Boots) (argv : List String)
    (env : String → Except Unit JSValue)
    (hfresh : b.bootsScripts = [])
    (hne : loadScriptPaths argv ≠ [])
    (hall : ∀ p ∈ loadScriptPaths argv,
      ∃ s r, loadOne b.baseUrl env p = .unit s ∧ s.run = .resolves r) :
    ((loadModules b.baseUrl env (loadScriptPaths argv)).1).length =
      (loadScriptPaths argv).length ∧
    (b.go argv env).2 =
      .stream (successTrace (loadModules b.baseUrl env (loadScriptPaths argv)).1
        ++ [.complete]) ∧
    nextsOf (successTrace (loadModules b.baseUrl env (loadScriptPaths argv)).1
        ++ [.complete]) =
      ((loadModules b.baseUrl env (loadScriptPaths argv)).1).map
        (fun u => resOf u.run) ∧
    invokesOf (successTrace (loadModules b.baseUrl env (loadScriptPaths argv)).1
        ++ [.complete]) =
      ((loadModules b.baseUrl env (loadScriptPaths argv)).1).map
        (fun u => u.bootsScriptName) := by
  have hsome : ∀ p ∈ loadScriptPaths argv, (unitOf b.baseUrl env p).isSome := by
    intro p hp
    obtain ⟨s, r, hu, _⟩ := hall p hp
    simp [unitOf, hu]
  have hok : (loadModules b.baseUrl env (loadScriptPaths argv)).2.ok = true := by
    rw [loadModules_ok, List.all_eq_true]
    exact hsome
  have hres : ∀ u ∈ (loadModules b.baseUrl env (loadScriptPaths argv)).1,
      ∃ r, u.run = .resolves r := by
    rw [loadModules_fst]
    intro u hu
    rw [List.mem_filterMap] at hu
    obtain ⟨p, hp, hup⟩ := hu
    obtain ⟨s, r, hu', hr⟩ := hall p hp
    simp only [unitOf, hu', Option.some.injEq] at hup
    exact ⟨r, hup ▸ hr⟩
  refine ⟨?_, ?_, ?_, ?_⟩
  · rw [loadModules_fst]
    exact length_filterMap_of_isSome _ _ hsome
  · rw [go_resolved b argv env hne hok]
    simp only
    rw [hfresh, List.nil_append, runTrace_resolves _ hres]
  · rw [nextsOf_append, nextsOf_successTrace]
    simp [nextsOf]
  · rw [invokesOf_append, invokesOf_successTrace]
    simp [invokesOf]

def c2Env : String → Except Unit JSValue := fun id =>
  if id = "a" then
    .ok (.obj (some "A") (some (.fn (.resolves ⟨true, none, "A"⟩))))
  else .error ()

/-- C2 witness: a single identifier that resolves to a succeeding unit. -/
theorem c2_witness :
    loadScriptPaths ["--boots", "a"] ≠ [] ∧
    ((Boots.new "cwd").go ["--boots", "a"] c2Env).2 =
      .stream (successTrace
        (loadModules "cwd" c2Env (loadScriptPaths ["--boots", "a"])).1
        ++ [.complete]) :=
  ⟨by decide,
   (c2_ordered_success (Boots.new "cwd") ["--boots", "a"] c2Env rfl (by decide)
     (by intro p hp
         have hps : loadScriptPaths ["--boots", "a"] = ["a"] := by decide
         rw [hps, List.mem_singleton] at hp
         subst hp
         exact ⟨⟨"A", .resolves ⟨true, none, "A"⟩⟩, ⟨true, none, "A"⟩,
           by decide, rfl⟩)).2.1⟩

/-- C3: resolution is exhaustive — `_loadModules` processes every
identifier: its `ok` flag is true exactly when both diagnostic collections
are empty, and the collections hold one entry per bad identifier (in input
order — the whole list of them, not just the first).  Whenever `ok` is
false, `go` throws the summary diagnostic instead of invoking the
sequencer (so no Outcome event is ever emitted), flips the session flag to
false, and stores one diagnostic string per non-empty collection, carrying
the full collection. -/
theorem c3_exhaustive_resolution (b : Boots)
    (env : String → Except Unit JSValue) (ids : List String) :
    ((loadModules b.baseUrl env ids).2.ok = true ↔
      (optList (loadModules b.baseUrl env ids).2.cantResolve = [] ∧
       optList (loadModules b.baseUrl env ids).2.wrongType = [])) ∧
    optList (loadModules b.baseUrl env ids).2.cantResolve =
      ids.filterMap (unresRec b.baseUrl env) ∧
    optList (loadModules b.baseUrl env ids).2.wrongType =
      ids.filterMap (wrongRec b.baseUrl env) ∧
    (∀ argv, loadScriptPaths argv = ids →
      (loadModules b.baseUrl env ids).2.ok = false →
        (b.go argv env).2 = .thrown loadFailMsg ∧
        (b.go argv env).1.ok = false ∧
        (optList (loadModules b.baseUrl env ids).2.cantResolve ≠ [] →
          cantResolveErr (optList (loadModules b.baseUrl env ids).2.cantResolve)
            ∈ (b.go argv env).1.errors) ∧
        (optList (loadModules b.baseUrl env ids).2.wrongType ≠ [] →
          wrongTypeErr (optList (loadModules b.baseUrl env ids).2.wrongType)
            ∈ (b.go argv env).1.errors)) := by
  refine ⟨?_, loadModules_cantResolve _ _ _, loadModules_wrongType _ _ _, ?_⟩
  · rw [loadModules_ok, loadModules_cantResolve, loadModules_wrongType,
      List.all_eq_true, List.filterMap_eq_nil_iff, List.filterMap_eq_nil_iff]
    constructor
    · intro h
      exact ⟨fun p hp => ((unitOf_isSome_iff _ _ _).mp (h p hp)).1,
             fun p hp => ((unitOf_isSome_iff _ _ _).mp (h p hp)).2⟩
    · intro ⟨h1, h2⟩ p hp
      exact (unitOf_isSome_iff _ _ _).mpr ⟨h1 p hp, h2 p hp⟩
  · intro argv hargv hok
    have hne : loadScriptPaths argv ≠ [] := by
      intro hnil
      rw [hargv] at hnil
      subst hnil
      simp [loadModules, loadModulesGo] at hok
    rw [← hargv] at hok
    obtain ⟨h1, h2, h3⟩ := go_resolution_failed b argv env hne hok
    rw [hargv] at h3
    refine ⟨h1, h2, ?_, ?_⟩
    · intro hcr
      rw [h3]
      rw [optList_eq_some _ hcr]
      simp [optList]
    · intro hwt
      rw [h3]
      rw [optList_eq_some _ hwt]
      simp [optList]

def c3Env : String → Except Unit JSValue := fun _ => .error ()

/-- C3 witness: one unresolvable identifier — go throws the summary and the
stored diagnostic carries the full unresolvable collection. -/
theorem c3_witness :
    ((Boots.new "base").go ["--boots", "a"] c3Env).2 = .thrown loadFailMsg ∧
    cantResolveErr ["base/a"] ∈
      ((Boots.new "base").go ["--boots", "a"] c3Env).1.errors := by
  have h := (c3_exhaustive_resolution (Boots.new "base") c3Env ["a"]).2.2.2
    ["--boots", "a"] (by decide) (by decide)
  refine ⟨h.1, ?_⟩
  have he : optList (loadModules (Boots.new "base").baseUrl c3Env ["a"]).2.cantResolve
      = ["base/a"] := by decide
  have h3 := h.2.2.1 (by rw [he]; decide)
  rw [he] at h3
  exact h3

def c4Env : String → Except Unit JSValue := fun _ => .error ()

/-- C4 counterexample: when both load attempts for identifier `"a"` (base
directory `"base"`) raise, the unresolvable collection records the
base-joined path `"base/a"`, not the identifier as originally supplied by
the caller. -/
theorem c4_counterexample :
    loadModules "base" c4Env ["a"] = ([], ⟨false, some ["base/a"], none⟩) ∧
    pathJoin "base" "a" = "base/a" ∧
    "base/a" ≠ "a" := by
  refine ⟨by decide, rfl, by decide⟩

/-- C4 (amended): the Resolver first attempts the identifier directly; if
that load raises it retries exactly once with the identifier joined onto
the configured base directory; if both attempts raise, the BASE-JOINED form
of the identifier (the path used by the second attempt) is recorded in the
unresolvable collection, no unit is appended for it, and processing
continues with the next identifier. -/
theorem c4_amended_fallback (baseUrl : String)
    (env : String → Except Unit JSValue) (id : String) (rest : List String)
    (h1 : env id = .error ()) (h2 : env (pathJoin baseUrl id) = .error ()) :
    loadOne baseUrl env id = .unresolvable (pathJoin baseUrl id) ∧
    (∀ env2 id2 v, env2 id2 = .ok v →
      loadOne baseUrl env2 id2 = classify v id2) ∧
    (loadModules baseUrl env (id :: rest)).1 =
      (loadModules baseUrl env rest).1 ∧
    optList (loadModules baseUrl env (id :: rest)).2.cantResolve =
      pathJoin baseUrl id :: optList (loadModules baseUrl env rest).2.cantResolve ∧
    optList (loadModules baseUrl env (id :: rest)).2.wrongType =
      optList (loadModules baseUrl env rest).2.wrongType := by
  have hl : loadOne baseUrl env id = .unresolvable (pathJoin baseUrl id) := by
    rw [loadOne, h1, h2]
  refine ⟨hl, ?_, ?_, ?_, ?_⟩
  · intro env2 id2 v hv
    rw [loadOne, hv]
  · rw [loadModules_fst, loadModules_fst, List.filterMap_cons]
    simp [unitOf, hl]
  · rw [loadModules_cantResolve, loadModules_cantResolve, List.filterMap_cons]
    simp [unresRec, hl]
  · rw [loadModules_wrongType, loadModules_wrongType, List.filterMap_cons]
    simp [wrongRec, hl]

/-- C4 amended witness: both attempts raise for `"a"`; the joined path is
recorded and the next identifier is still processed. -/
theorem c4_amended_witness :
    loadOne "base" c4Env "a" = .unresolvable (pathJoin "base" "a") ∧
    optList (loadModules "base" c4Env ["a"]).2.cantResolve =
      pathJoin "base" "a" :: optList (loadModules "base" c4Env []).2.cantResolve :=
  ⟨(c4_amended_fallback "base" c4Env "a" [] rfl rfl).1,
   (c4_amended_fallback "base" c4Env "a" [] rfl rfl).2.2.2.1⟩

/-- C5: the shape check on a loaded object value never throws: it returns a
boolean that is true exactly when the value has a callable `run` field and
a present, non-empty `bootsScriptName`; a truthy check always yields a
unit, a falsy check records the path as wrong-shape; in particular a value
with a name but a non-callable `run` is routed to the wrong-shape
collection (no unit appended, no crash) and resolution continues. -/
theorem c5_shape_check (name : Option String) (runf : Option RunField) :
    (∃ bl : Bool, isBootsScript (.obj name runf) = .ok bl ∧
      (bl = true ↔
        ((∃ beh, runf = some (.fn beh)) ∧ ∃ s, name = some s ∧ s ≠ ""))) ∧
    (∀ v rec, isBootsScript v = .ok true → ∃ s, classify v rec = .unit s) ∧
    (∀ v rec, isBootsScript v = .ok false → classify v rec = .wrongShape rec) ∧
    (∀ baseUrl (env : String → Except Unit JSValue) id rest n,
      env id = .ok (.obj (some n) (some .notFun)) →
        loadOne baseUrl env id = .wrongShape id ∧
        (loadModules baseUrl env (id :: rest)).1 =
          (loadModules baseUrl env rest).1 ∧
        optList (loadModules baseUrl env (id :: rest)).2.wrongType =
          id :: optList (loadModules baseUrl env rest).2.wrongType) := by
  refine ⟨⟨_, rfl, ?_⟩, ?_, ?_, ?_⟩
  · rw [Bool.and_eq_true]
    constructor
    · intro ⟨hr, hn⟩
      refine ⟨?_, ?_⟩
      · cases runf with
        | none => exact absurd hr (by simp)
        | some rf =>
            cases rf with
            | notFun => exact absurd hr (by simp)
            | fn beh => exact ⟨beh, rfl⟩
      · cases name with
        | none => exact absurd hn (by simp)
        | some s => exact ⟨s, rfl, by simpa using hn⟩
    · intro ⟨⟨beh, hbeh⟩, s, hs, hne⟩
      subst hbeh; subst hs
      simpa using hne
  · intro v rec hv
    cases v with
    | undefined => exact absurd hv (by simp [isBootsScript])
    | null => exact absurd hv (by simp [isBootsScript])
    | obj nm rf =>
        simp only [isBootsScript, Except.ok.injEq, Bool.and_eq_true] at hv
        obtain ⟨hr, hn⟩ := hv
        cases rf with
        | none => exact absurd hr (by simp)
        | some rfv =>
            cases rfv with
            | notFun => exact absurd hr (by simp)
            | fn beh =>
                cases nm with
                | none => exact absurd hn (by simp)
                | some s =>
                    refine ⟨⟨s, beh⟩, ?_⟩
                    rw [classify]
                    simp only [bne_iff_ne, ne_eq] at hn
                    rw [if_neg hn]
  · intro v rec hv
    cases v with
    | undefined => exact absurd hv (by simp [isBootsScript])
    | null => exact absurd hv (by simp [isBootsScript])
    | obj nm rf =>
        simp only [isBootsScript, Except.ok.injEq] at hv
        cases rf with
        | none => cases nm <;> rfl
        | some rfv =>
            cases rfv with
            | notFun => cases nm <;> rfl
            | fn beh =>
                cases nm with
                | none => rfl
                | some s =>
                    have hse : s = "" := by simpa using hv
                    subst hse
                    simp [classify]
  · intro baseUrl env id rest n hv
    have hl : loadOne baseUrl env id = .wrongShape id := by
      rw [loadOne, hv]
      rfl
    refine ⟨hl, ?_, ?_⟩
    · rw [loadModules_fst, loadModules_fst, List.filterMap_cons]
      simp [unitOf, hl]
    · rw [loadModules_wrongType, loadModules_wrongType, List.filterMap_cons]
      simp [wrongRec, hl]

def c5Env : String → Except Unit JSValue := fun id =>
  if id = "x" then .ok (.obj (some "mod") (some .notFun)) else .error ()

/-- C5 witness: an identifier loading to a value with a name but a
non-callable run is recorded as wrong-shape. -/
theorem c5_witness :
    loadOne "base" c5Env "x" = .wrongShape "x" ∧
    optList (loadModules "base" c5Env ["x"]).2.wrongType = ["x"] := by
  have h := (c5_shape_check (some "mod") (some .notFun)).2.2.2
    "base" c5Env "x" [] "mod" rfl
  refine ⟨h.1, ?_⟩
  rw [h.2.2]
  decide

def c6Env : String → Except Unit JSValue := fun _ => .error ()

/-- C6: when the argument scan yields no identifiers, `go` immediately
fails the run with the "no script paths" diagnostic, sets the session flag
to false, and its result is independent of the module-loading environment —
no load is ever attempted and the sequencer is never invoked (the output is
a thrown error, not a stream). -/
theorem c6_empty_run (b : Boots) (argv : List String)
    (env env' : String → Except Unit JSValue)
    (h : loadScriptPaths argv = []) :
    (b.go argv env).2 = .thrown noScriptsMsg ∧
    (b.go argv env).1.ok = false ∧
    b.go argv env = b.go argv env' := by
  rw [go_empty b argv env h, go_empty b argv env' h]
  exact ⟨rfl, rfl, rfl⟩

/-- C6 witness: an argument list without the flag. -/
theorem c6_witness :
    ((Boots.new "cwd").go ["node", "app.js"] c6Env).2 = .thrown noScriptsMsg :=
  (c6_empty_run (Boots.new "cwd") ["node", "app.js"] c6Env c6Env (by decide)).1

/-- C7: if the units before `s` all resolve with successful outcomes and
`s`'s run rejects, the trace holds exactly `pre.length` next events (all of
them successful outcomes, one per earlier unit, in order) before the single
terminal error, and the only invocations are those of the earlier units and
of `s` itself — the runs of the units after `s` are never invoked. -/
theorem c7_fail_fast_prefix (pre : List BootsScript) (s : BootsScript)
    (post : List BootsScript) (e : BootsScriptResult)
    (hpre : ∀ u ∈ pre, ∃ r, u.run = .resolves r ∧ r.success = true)
    (hs : s.run = .rejects e) :
    runTrace (pre ++ s :: post) =
      successTrace pre ++ [.invoke s.bootsScriptName, .errorEvt (errMsg e)] ∧
    (nextsOf (runTrace (pre ++ s :: post))).length = pre.length ∧
    (∀ r ∈ nextsOf (runTrace (pre ++ s :: post)), r.success = true) ∧
    invokesOf (runTrace (pre ++ s :: post)) =
      (pre.map fun u => u.bootsScriptName) ++ [s.bootsScriptName] := by
  have htr := runTrace_rejects_at pre s post e
    (fun u hu => ⟨(hpre u hu).choose, (hpre u hu).choose_spec.1⟩) hs
  have hnx : nextsOf (runTrace (pre ++ s :: post)) =
      pre.map fun u => resOf u.run := by
    rw [htr, nextsOf_append, nextsOf_successTrace]
    simp [nextsOf]
  refine ⟨htr, ?_, ?_, ?_⟩
  · rw [hnx, List.length_map]
  · rw [hnx]
    intro r hr
    rw [List.mem_map] at hr
    obtain ⟨u, hu, hru⟩ := hr
    obtain ⟨r', hr', hsucc⟩ := hpre u hu
    rw [← hru, hr']
    exact hsucc
  · rw [htr, invokesOf_append, invokesOf_successTrace]
    simp [invokesOf]

/-- C7 witness: one succeeding unit, one rejecting unit, one unit after the
failure (k = 2, n = 3). -/
theorem c7_witness :
    (nextsOf (runTrace [⟨"a", .resolves ⟨true, none, "a"⟩⟩,
      ⟨"b", .rejects ⟨false, some "boom", "b"⟩⟩,
      ⟨"c", .resolves ⟨true, none, "c"⟩⟩])).length = 1 ∧
    invokesOf (runTrace [⟨"a", .resolves ⟨true, none, "a"⟩⟩,
      ⟨"b", .rejects ⟨false, some "boom", "b"⟩⟩,
      ⟨"c", .resolves ⟨true, none, "c"⟩⟩]) = ["a", "b"] := by
  have h := c7_fail_fast_prefix
    [⟨"a", .resolves ⟨true, none, "a"⟩⟩]
    ⟨"b", .rejects ⟨false, some "boom", "b"⟩⟩
    [⟨"c", .resolves ⟨true, none, "c"⟩⟩]
    ⟨false, some "boom", "b"⟩
    (by intro u hu
        rw [List.mem_singleton] at hu
        exact ⟨⟨true, none, "a"⟩, by rw [hu], rfl⟩)
    rfl
  exact ⟨h.2.1, h.2.2.2⟩

/-- C8: the session's `ok` flag starts true at construction and is monotone
within one instance: `go` either leaves it unchanged or sets it to false
(never back to true), a false flag stays false across `go`, and
`logErrors` leaves the state untouched. -/
theorem c8_ok_monotone :
    (∀ baseUrl, (Boots.new baseUrl).ok = true) ∧
    (∀ (b : Boots) argv env,
      (b.go argv env).1.ok = b.ok ∨ (b.go argv env).1.ok = false) ∧
    (∀ (b : Boots) argv env, b.ok = false → (b.go argv env).1.ok = false) ∧
    (∀ b : Boots, b.logErrors.1 = b) := by
  have hgo : ∀ (b : Boots) argv env,
      (b.go argv env).1.ok = b.ok ∨ (b.go argv env).1.ok = false := by
    intro b argv env
    by_cases hargv : loadScriptPaths argv = []
    · right
      rw [go_empty b argv env hargv]
    · cases hok : (loadModules b.baseUrl env (loadScriptPaths argv)).2.ok with
      | true =>
          rw [go_resolved b argv env hargv hok]
          dsimp only
          split
          · right; rfl
          · left; rfl
      | false =>
          right
          exact (go_resolution_failed b argv env hargv hok).2.1
  refine ⟨fun baseUrl => rfl, hgo, ?_, fun b => rfl⟩
  intro b argv env hb
  rcases hgo b argv env with h | h
  · rw [h, hb]
  · exact h

def c8Env : String → Except Unit JSValue := fun _ => .error ()

/-- C8 witness: a session whose flag is already false keeps it false. -/
theorem c8_witness :
    (({ Boots.new "cwd" with ok := false } : Boots).go [] c8Env).1.ok = false :=
  c8_ok_monotone.2.2.1 _ [] c8Env rfl

/-- C9: the command-line scan refines the spec's description — it collects
exactly the tokens following each occurrence of the one recognized flag, up
to (excluding) the next token whose first character is `-` or the end of
the argument list, in encountered order; tokens other than the recognized
flag never start a collection (an argument list without the flag yields no
identifiers). -/
theorem c9_flag_scan :
    (∀ argv, loadScriptPaths argv = scriptPathsSpec argv) ∧
    (∀ argv, commandlineFlag ∉ argv → loadScriptPaths argv = []) := by
  have aux : ∀ argv, commandlineFlag ∉ argv → scriptPathsSpec argv = [] := by
    intro argv
    induction argv with
    | nil => intro _; rfl
    | cons a rest ih =>
        intro h
        have hne : ¬ a = commandlineFlag := fun ha =>
          h (ha ▸ List.mem_cons_self a rest)
        rw [scriptPathsSpec, if_neg hne, List.nil_append]
        exact ih fun hr => h (List.mem_cons_of_mem a hr)
  exact ⟨loadScriptPaths_eq_spec,
    fun argv h => (loadScriptPaths_eq_spec argv).trans (aux argv h)⟩

/-- C9 witness: an argument list without the flag yields no identifiers. -/
theorem c9_witness : loadScriptPaths ["node", "app.js"] = [] :=
  c9_flag_scan.2 ["node", "app.js"] (by decide)

def c10Env : String → Except Unit JSValue := fun _ => .ok .undefined

/-- C10: when a module loads but its default export is `undefined` or
`null`, the shape check's field access throws (`.error`), the throw is
caught by the resolution error handler, and the identifier is recorded in
the unresolvable collection — not the wrong-shape one — while the run goes
on with the remaining identifiers. -/
theorem c10_missing_default (baseUrl : String)
    (env : String → Except Unit JSValue) (id : String) (rest : List String)
    (h : env id = .ok .undefined ∨ env id = .ok .null) :
    isBootsScript .undefined = .error () ∧
    isBootsScript .null = .error () ∧
    loadOne baseUrl env id = .unresolvable id ∧
    (loadModules baseUrl env (id :: rest)).1 =
      (loadModules baseUrl env rest).1 ∧
    optList (loadModules baseUrl env (id :: rest)).2.cantResolve =
      id :: optList (loadModules baseUrl env rest).2.cantResolve ∧
    optList (loadModules baseUrl env (id :: rest)).2.wrongType =
      optList (loadModules baseUrl env rest).2.wrongType := by
  have hl : loadOne baseUrl env id = .unresolvable id := by
    rcases h with h | h <;> rw [loadOne, h] <;> rfl
  refine ⟨rfl, rfl, hl, ?_, ?_, ?_⟩
  · rw [loadModules_fst, loadModules_fst, List.filterMap_cons]
    simp [unitOf, hl]
  · rw [loadModules_cantResolve, loadModules_cantResolve, List.filterMap_cons]
    simp [unresRec, hl]
  · rw [loadModules_wrongType, loadModules_wrongType, List.filterMap_cons]
    simp [wrongRec, hl]

/-- C10 witness: a module whose default export is `undefined`. -/
theorem c10_witness :
    loadOne "base" c10Env "m" = .unresolvable "m" ∧
    optList (loadModules "base" c10Env ["m"]).2.cantResolve = ["m"] := by
  have h := c10_missing_default "base" c10Env "m" [] (Or.inl rfl)
  refine ⟨h.2.2.1, ?_⟩
  rw [h.2.2.2.2.1]
  decide
